import Mathlib

/-!
Shallow embedding of `acme_powerdns/acme_client.py` (classes `Account` and
`CertRequest`, plus the module-level monkeypatched `register`).

External collaborators (the `acme` library client, the CA, the filesystem)
are modelled as explicit environment records of functions; the control flow
of the repository's own code is translated statement by statement.  Network
calls performed through the environment are recorded in an event trace so
that claims about side-effect ordering ("before any network call", "after
all answers are submitted") can be stated.
-/

namespace AcmePowerdns

/-- Challenge classes appearing in the dict at `acme_client.py` lines
158-162: `challenges.DNS01`, `challenges.HTTP01`, `challenges.TLSSNI01`;
`Other` stands for any further challenge class of the `acme` library. -/
inductive ChallClass
  | DNS01
  | HTTP01
  | TLSSNI01
  | Other
deriving DecidableEq

/-- A challenge body entry of an authorization (`authzr.body.challenges[i]`):
`chall` is the class of the wrapped challenge object (what
`isinstance(..., challenge_class)` inspects at line 179), `token` its token. -/
structure Challenge where
  chall : ChallClass
  token : String
deriving DecidableEq

instance : Inhabited Challenge := ⟨⟨ChallClass.Other, ""⟩⟩

/-- The body of an authorization resource: `authzr.body.challenges` and
`authzr.body.combinations` (lists of indices into `challenges`). -/
structure AuthzBody where
  challenges : List Challenge
  combinations : List (List Nat)
deriving DecidableEq

/-- An authorization resource as used by `request_tokens`: the Python object
carries the domain inside `body.identifier`; we lift it to a field because
the `LookupError` at line 184 formats the whole `authzr` (hence names the
domain) into its message. -/
structure Authzr where
  domain : String
  body : AuthzBody
deriving DecidableEq

instance : Inhabited Authzr := ⟨⟨"", ⟨[], []⟩⟩⟩

/-- The errors `acme_client.py` can raise, one constructor per `raise` site:
`invalidChallengeType` is the `ValueError` of line 164 (spec name
InvalidChallengeType), `challengeRequestError` the `SystemError` of line 175,
`challengeTypeUnavailable` the `LookupError` of line 184 (spec name
ChallengeTypeUnavailable; its message formats `ctype` and the authorization,
which names the domain), `indexError` a Python `IndexError` from
`challenges[c[0]]` at line 180, `challengeAnswerError` the `SystemError` of
line 219, `issuanceError` the `SystemError` of line 228, and `chainError`
the `ValueError` of line 234. -/
inductive AcmeError
  | invalidChallengeType (ctype : String)
  | challengeRequestError (domain : String)
  | challengeTypeUnavailable (ctype : String) (domain : String)
  | indexError
  | challengeAnswerError
  | issuanceError
  | chainError
deriving DecidableEq

/-- Network side effects of a `CertRequest`, recorded in traces:
`requestChallenges d` is the `request_domain_challenges` + `poll` block of
lines 168-173 for domain `d`; `answerChallenge` the `answer_challenge` call
of line 214; `pollAndIssue` the `poll_and_request_issuance` call of line 223;
`fetchChain` the `fetch_chain` call of line 232. -/
inductive Event
  | requestChallenges (domain : String)
  | answerChallenge (challb : Challenge) (response : String)
  | pollAndIssue
  | fetchChain
deriving DecidableEq

/-- One entry of the list returned by `request_tokens` (lines 196-199). -/
structure Token where
  domain : String
  validation : String
deriving DecidableEq

/-- One entry of `self._challenges` (lines 190-195). -/
structure ChallengeCtx where
  authzr : Authzr
  challb : Challenge
  response : String
  validation : String
deriving DecidableEq

instance : Inhabited ChallengeCtx := ⟨⟨default, default, "", ""⟩⟩

/-- The mutable state of a `CertRequest` object relevant to the claims:
`self._challenges`, initialized to `list()` in `__init__` (line 145). -/
structure CertRequestState where
  challenges : List ChallengeCtx
deriving DecidableEq

/-- Environment for `request_tokens`: `authzOf d` is the combined
`request_domain_challenges` + `poll` result for domain `d` (both sit in one
`try` block, lines 167-175; `.error` means that block raised), and
`respVal ch` is `challb.response_and_validation(self._account_key)`
(line 186), deterministic per challenge since the account key is fixed for
the session. -/
structure Env where
  authzOf : String → Except Unit Authzr
  respVal : Challenge → String × String

/-- The dict of lines 158-162 keyed by the `ctype` argument; `none` is the
`KeyError` caught at line 163. -/
def challenge_classes (ctype : String) : Option ChallClass :=
  if ctype = "dns01" then some ChallClass.DNS01
  else if ctype = "http01" then some ChallClass.HTTP01
  else if ctype = "tlssni01" then some ChallClass.TLSSNI01
  else none

/-- The selection loop of lines 177-182: iterate over the combinations,
and for each single-element combination `[i]` whose referenced challenge is
an instance of the requested class, overwrite the selection `challb` (the
accumulator `acc`).  An index outside `challenges` raises `IndexError`
(the subscript at line 180 is only evaluated when `len(c) == 1`). -/
def scanCombos (cls : ChallClass) (challs : List Challenge) :
    List (List Nat) → Option Challenge → Except AcmeError (Option Challenge)
  | [], acc => Except.ok acc
  | c :: rest, acc =>
    match c with
    | [i] =>
      match challs[i]? with
      | none => Except.error AcmeError.indexError
      | some ch =>
        scanCombos cls challs rest (if ch.chall = cls then some ch else acc)
    | _ => scanCombos cls challs rest acc

/-- Lines 177-184: run the selection loop starting from `challb = None`;
if no selection was made, raise the `LookupError` (ChallengeTypeUnavailable)
carrying the requested type and the authorization's domain. -/
def select_challb (cls : ChallClass) (ctype : String) (authzr : Authzr) :
    Except AcmeError Challenge :=
  match scanCombos cls authzr.body.challenges authzr.body.combinations none with
  | Except.error e => Except.error e
  | Except.ok none =>
      Except.error (AcmeError.challengeTypeUnavailable ctype authzr.domain)
  | Except.ok (some ch) => Except.ok ch

/-- The per-domain body of the `for domain in domains` loop of lines
165-199, threading `self._challenges` (`ctxs`) and returning the new state,
the trace of network calls, and either the token list or the raised error. -/
def rtLoop (env : Env) (cls : ChallClass) (ctype : String) :
    List ChallengeCtx → List String →
    List ChallengeCtx × List Event × Except AcmeError (List Token)
  | ctxs, [] => (ctxs, [], Except.ok [])
  | ctxs, domain :: rest =>
    match env.authzOf domain with
    | Except.error _ =>
        (ctxs, [Event.requestChallenges domain],
          Except.error (AcmeError.challengeRequestError domain))
    | Except.ok authzr =>
      match select_challb cls ctype authzr with
      | Except.error e =>
          (ctxs, [Event.requestChallenges domain], Except.error e)
      | Except.ok challb =>
        let rv := env.respVal challb
        let r := rtLoop env cls ctype
          (ctxs ++ [⟨authzr, challb, rv.1, rv.2⟩]) rest
        (r.1, Event.requestChallenges domain :: r.2.1,
          match r.2.2 with
          | Except.ok toks => Except.ok (⟨domain, rv.2⟩ :: toks)
          | Except.error e => Except.error e)

/-- `CertRequest.request_tokens` (lines 148-201): resolve the challenge
class first (raising `ValueError` on an unknown `ctype` before any network
call), then process the domains in order. -/
def request_tokens (env : Env) (st : CertRequestState)
    (domains : List String) (ctype : String) :
    CertRequestState × List Event × Except AcmeError (List Token) :=
  match challenge_classes ctype with
  | none => (st, [], Except.error (AcmeError.invalidChallengeType ctype))
  | some cls =>
    let r := rtLoop env cls ctype st.challenges domains
    (⟨r.1⟩, r.2.1, r.2.2)

/-- The caller-supplied certificate signing request; only its
subject-alternative-name domain set is relevant to the claims. -/
structure CSR where
  domains : List String
deriving DecidableEq

/-- The certificate resource returned by `poll_and_request_issuance`; its
`body` is the issued leaf certificate (line 231 builds `cert = [crt.body]`).
Certificates are abstract and represented by strings. -/
structure CertResource where
  body : String
deriving DecidableEq

/-- Environment for `answer_challenges`: `answer_challenge` is the client
call of line 214 (`.error` means the `try` block of lines 213-219 raised),
`poll_and_request_issuance` the call of line 223 (the Python call also
returns updated authorizations, which the code never uses afterwards), and
`fetch_chain` the call of line 232. -/
structure IssuEnv where
  answer_challenge : Challenge → String → Except Unit Unit
  poll_and_request_issuance : CSR → List Authzr → Except Unit CertResource
  fetch_chain : CertResource → Except Unit (List String)

/-- The submission loop of lines 211-220: for each stored challenge context
answer its challenge (a failure raises `SystemError` after the network call
was already attempted), then append the context's authorization to the
local `authzrs` accumulator `acc`. -/
def acLoop (env : IssuEnv) :
    List ChallengeCtx → List Authzr →
    List Authzr × List Event × Except AcmeError Unit
  | [], acc => (acc, [], Except.ok ())
  | ctx :: rest, acc =>
    match env.answer_challenge ctx.challb ctx.response with
    | Except.error _ =>
        (acc, [Event.answerChallenge ctx.challb ctx.response],
          Except.error AcmeError.challengeAnswerError)
    | Except.ok _ =>
      let r := acLoop env rest (acc ++ [ctx.authzr])
      (r.1, Event.answerChallenge ctx.challb ctx.response :: r.2.1, r.2.2)

/-- `CertRequest.answer_challenges` (lines 203-237): submit every stored
answer, then request issuance with the CSR and the collected authorizations
(a failure there is the `SystemError` of line 228), then build
`cert = [crt.body]` and fetch the chain (a failure there is the
`ValueError` of line 234).  The method never writes `self._challenges`, so
the state component of the result equals the input state. -/
def answer_challenges (env : IssuEnv) (st : CertRequestState) (csr : CSR) :
    CertRequestState × List Event ×
      Except AcmeError (List String × List String) :=
  let r := acLoop env st.challenges []
  match r.2.2 with
  | Except.error e => (st, r.2.1, Except.error e)
  | Except.ok _ =>
    match env.poll_and_request_issuance csr r.1 with
    | Except.error _ =>
        (st, r.2.1 ++ [Event.pollAndIssue], Except.error AcmeError.issuanceError)
    | Except.ok crt =>
      match env.fetch_chain crt with
      | Except.error _ =>
          (st, r.2.1 ++ [Event.pollAndIssue, Event.fetchChain],
            Except.error AcmeError.chainError)
      | Except.ok chain =>
          (st, r.2.1 ++ [Event.pollAndIssue, Event.fetchChain],
            Except.ok ([crt.body], chain))

/-- An HTTP response as inspected by the monkeypatched `register`
(lines 259-263): its status code and its `Location` header
(`headers.get('Location')`, `none` when absent). -/
structure RegResponse where
  status_code : Nat
  location : Option String
deriving DecidableEq

/-- A registration resource; only the account URI matters to the claims. -/
structure Registration where
  uri : String
deriving DecidableEq

/-- Environment for `register`: the CA reached through `self.net.post`,
with explicit state `σ` so that successive calls can observe earlier
registrations.  `postNewReg` is the new-registration post of lines 254-258;
`postUpdateReg loc` the post to the conflict `Location` of line 264. -/
structure RegEnv (σ : Type) where
  postNewReg : σ → RegResponse × σ
  postUpdateReg : String → σ → RegResponse × σ

/-- Modelled from the spec: `_regr_from_response` of the external `acme`
library (not part of this repository) builds the registration resource,
taking the account URI from the explicit `uri` keyword when one is given
(the conflict branch passes `uri=loc`) and from the response's `Location`
header otherwise. -/
def regr_from_response (resp : RegResponse) (uri : Option String) :
    Registration :=
  match uri with
  | some u => ⟨u⟩
  | none => ⟨resp.location.getD ""⟩

/-- `_monkeypatch_register` (lines 252-265, installed as `Client.register`
at line 269): post the new registration; if the response is a 409 conflict
whose `Location` header is truthy (present and non-empty), post an update
registration to that location and build the registration resource with
`uri=loc`; otherwise build it from the first response with `uri=None`. -/
def register {σ : Type} (env : RegEnv σ) (s : σ) : Registration × σ :=
  let r1 := env.postNewReg s
  match r1.1.status_code, r1.1.location with
  | 409, some l =>
    if l = "" then (regr_from_response r1.1 none, r1.2)
    else
      let r2 := env.postUpdateReg l r1.2
      (regr_from_response r2.1 (some l), r2.2)
  | _, _ => (regr_from_response r1.1 none, r1.2)

/-- Modelled from the spec: a CA for which registration of the session's
(fixed) account key is idempotent.  Its state is the account URI already
assigned to this key, if any; a first new-registration creates the account
under URI `u`, a repeated one answers 409 Conflict with the existing URI in
the `Location` header, and an update post to a location echoes it back. -/
def idealCA (u : String) : RegEnv (Option String) where
  postNewReg := fun s =>
    match s with
    | none => (⟨201, some u⟩, some u)
    | some v => (⟨409, some v⟩, some v)
  postUpdateReg := fun l s => (⟨202, some l⟩, s)

/-- Failure modes of `open(keyfile, 'rb')` at line 108: the file is missing
or may not be read. -/
inductive FileErr
  | enoent
  | eacces
deriving DecidableEq

/-- Errors raised by `Account.create_account` (lines 100-136), one
constructor per raise site: `osError` is an exception escaping the `open`
call at line 108, which sits outside the `try` of lines 109-119 and is
therefore not wrapped; `keyLoadError` the wrapping `Exception` of line 119
(spec name KeyLoadError); `registrationError` the `SystemError` of line 135
(spec name RegistrationError). -/
inductive AccountError
  | osError (e : FileErr)
  | keyLoadError
  | registrationError
deriving DecidableEq

/-- Environment for `create_account`: `openFile` is `open(keyfile, 'rb')`
(line 108, returning a handle), `readHandle` is `kf.read()` (line 110),
`parseKey` is `serialization.load_pem_private_key` wrapped into
`jose.JWKRSA` (lines 111-117, `none` on an invalid encoding), and
`registerKey` is the whole registration block of lines 121-133
(`client.Client`, `register`, `agree_to_tos`). -/
structure AccountEnv where
  openFile : String → Except FileErr Nat
  readHandle : Nat → Except Unit String
  parseKey : String → Option String
  registerKey : String → Except Unit Registration

/-- `Account.create_account` (lines 100-136): open the key file (failures
here propagate unwrapped), read and parse the key inside a `try` whose
handler raises the generic key-load `Exception`, then register (failures
wrapped as `SystemError`) and return the registration with the key. -/
def create_account (env : AccountEnv) (keyfile : String) :
    Except AccountError (Registration × String) :=
  match env.openFile keyfile with
  | Except.error e => Except.error (AccountError.osError e)
  | Except.ok h =>
    match
      (match env.readHandle h with
       | Except.error _ => Except.error ()
       | Except.ok contents =>
         match env.parseKey contents with
         | none => Except.error ()
         | some k => Except.ok k : Except Unit String) with
    | Except.error _ => Except.error AccountError.keyLoadError
    | Except.ok key =>
      match env.registerKey key with
      | Except.error _ => Except.error AccountError.registrationError
      | Except.ok regr => Except.ok (regr, key)

/-- Spec-side reading of one combination (for the refinement statement of
the selection policy): a single-element combination yields its referenced
challenge when that challenge's type equals the requested class. -/
def singletonMatchAt (cls : ChallClass) (challs : List Challenge) :
    List Nat → Option Challenge
  | [i] =>
    match challs[i]? with
    | some ch => if ch.chall = cls then some ch else none
    | none => none
  | _ => none

/-- Spec-side selection policy, following the spec's words: the challenge
referenced by the last combination of size one (in combination-list order)
whose challenge type equals the requested one. -/
def lastSingletonMatch (cls : ChallClass) (body : AuthzBody) :
    Option Challenge :=
  body.combinations.reverse.findSome? (singletonMatchAt cls body.challenges)

/-- The challenge context `request_tokens` stores for domain `d` when its
iteration succeeds (`none` when requesting, polling or selection fails). -/
def ctxOf (env : Env) (cls : ChallClass) (ctype : String) (d : String) :
    Option ChallengeCtx :=
  match env.authzOf d with
  | Except.error _ => none
  | Except.ok a =>
    match select_challb cls ctype a with
    | Except.error _ => none
    | Except.ok ch => some ⟨a, ch, (env.respVal ch).1, (env.respVal ch).2⟩

/-- `ctxOf` with a default for the (never reached on success) `none` case. -/
def ctxOfD (env : Env) (cls : ChallClass) (ctype : String) (d : String) :
    ChallengeCtx :=
  (ctxOf env cls ctype d).getD default

/-- The token entry `request_tokens` returns for domain `d` when its
iteration succeeds. -/
def tokenOf (env : Env) (cls : ChallClass) (ctype : String) (d : String) :
    Token :=
  ⟨d, (ctxOfD env cls ctype d).validation⟩

/-- The challenge answers actually submitted over the network in a trace. -/
def submittedAnswers (tr : List Event) : List (Challenge × String) :=
  tr.filterMap fun e =>
    match e with
    | Event.answerChallenge ch r => some (ch, r)
    | _ => none

/-- Concrete environment in which every domain owns one dns01 challenge
reachable through the singleton combination. -/
def okEnv : Env where
  authzOf := fun d =>
    Except.ok ⟨d, ⟨[⟨ChallClass.DNS01, "tok-" ++ d⟩], [[0]]⟩⟩
  respVal := fun ch => ("resp-" ++ ch.token, "val-" ++ ch.token)

/-- Concrete environment whose challenge library computes the empty string
as validation value for every challenge. -/
def dupEnv : Env where
  authzOf := fun d =>
    Except.ok ⟨d, ⟨[⟨ChallClass.DNS01, "t"⟩], [[0]]⟩⟩
  respVal := fun _ => ("resp", "")

/-- Concrete environment in which requesting challenges for the domain
`fail.example.com` raises and every other domain succeeds. -/
def failSecondEnv : Env where
  authzOf := fun d =>
    if d = "fail.example.com" then Except.error ()
    else Except.ok ⟨d, ⟨[⟨ChallClass.DNS01, "tok-" ++ d⟩], [[0]]⟩⟩
  respVal := fun ch => ("resp-" ++ ch.token, "val-" ++ ch.token)

/-- A stored challenge context for `a.example.com`, as produced by `okEnv`. -/
def ctxA : ChallengeCtx :=
  ⟨⟨"a.example.com", ⟨[⟨ChallClass.DNS01, "tok-a.example.com"⟩], [[0]]⟩⟩,
    ⟨ChallClass.DNS01, "tok-a.example.com"⟩,
    "resp-tok-a.example.com", "val-tok-a.example.com"⟩

/-- Concrete issuance environment in which every step succeeds and the CA
serves a two-certificate chain. -/
def allOkIssuEnv : IssuEnv where
  answer_challenge := fun _ _ => Except.ok ()
  poll_and_request_issuance := fun _ _ => Except.ok ⟨"leaf"⟩
  fetch_chain := fun _ => Except.ok ["intermediate-1", "intermediate-2"]

/-- Concrete issuance environment whose CA rejects any CSR not naming
exactly `a.example.com` (the negotiated domain set). -/
def mismatchIssuEnv : IssuEnv where
  answer_challenge := fun _ _ => Except.ok ()
  poll_and_request_issuance := fun csr _ =>
    if csr.domains = ["a.example.com"] then Except.ok ⟨"leaf-a"⟩
    else Except.error ()
  fetch_chain := fun _ => Except.ok ["intermediate-a"]

/-- Concrete issuance environment in which issuance succeeds but the
chain-discovery mechanism yields no intermediate certificates. -/
def emptyChainIssuEnv : IssuEnv where
  answer_challenge := fun _ _ => Except.ok ()
  poll_and_request_issuance := fun _ _ => Except.ok ⟨"leaf"⟩
  fetch_chain := fun _ => Except.ok []

/-- Concrete account environment in which the key file is missing, so
`open` itself raises. -/
def missingKeyEnv : AccountEnv where
  openFile := fun _ => Except.error FileErr.enoent
  readHandle := fun _ => Except.ok ""
  parseKey := fun _ => none
  registerKey := fun _ => Except.error ()

/-- Concrete account environment in which the key file opens but reading
its handle raises. -/
def readFailEnv : AccountEnv where
  openFile := fun _ => Except.ok 3
  readHandle := fun _ => Except.error ()
  parseKey := fun _ => some "key"
  registerKey := fun _ => Except.error ()

/-- Concrete account environment in which the key file reads fine but does
not contain a valid private-key encoding. -/
def badPemEnv : AccountEnv where
  openFile := fun _ => Except.ok 3
  readHandle := fun _ => Except.ok "not a pem"
  parseKey := fun _ => none
  registerKey := fun _ => Except.error ()

theorem findSome?_singleton {α β : Type} (f : α → Option β) (a : α) :
    List.findSome? f [a] = f a := by
  cases h : f a with
  | none =>
    rw [List.findSome?_cons_of_isNone]
    · rfl
    · simp [h]
  | some b =>
    rw [List.findSome?_cons_of_isSome]
    · exact h
    · simp [h]

theorem scanCombos_eq_ok (cls : ChallClass) (challs : List Challenge) :
    ∀ (combos : List (List Nat)) (acc : Option Challenge),
    (∀ c ∈ combos, ∀ i ∈ c, i < challs.length) →
    scanCombos cls challs combos acc =
      Except.ok
        ((combos.reverse.findSome? (singletonMatchAt cls challs)).or acc) := by
  intro combos
  induction combos with
  | nil => intro acc _; simp [scanCombos]
  | cons c rest ih =>
    intro acc hwf
    have hrest : ∀ c2 ∈ rest, ∀ i ∈ c2, i < challs.length := by
      intro c2 hc2 i hi
      exact hwf c2 (List.mem_cons_of_mem _ hc2) i hi
    rw [List.reverse_cons, List.findSome?_append, findSome?_singleton,
      Option.or_assoc]
    match c with
    | [] =>
      rw [show scanCombos cls challs ([] :: rest) acc
          = scanCombos cls challs rest acc from rfl]
      rw [ih acc hrest]
      rfl
    | i :: j :: cs =>
      rw [show scanCombos cls challs ((i :: j :: cs) :: rest) acc
          = scanCombos cls challs rest acc from rfl]
      rw [ih acc hrest]
      rfl
    | [i] =>
      have hi : i < challs.length := hwf [i] (by simp) i (by simp)
      have hch : challs[i]? = some challs[i] := List.getElem?_eq_getElem hi
      rw [show scanCombos cls challs ([i] :: rest) acc
          = (match challs[i]? with
             | none => Except.error AcmeError.indexError
             | some ch =>
               scanCombos cls challs rest
                 (if ch.chall = cls then some ch else acc)) from rfl]
      simp only [hch]
      rw [ih _ hrest]
      rw [show singletonMatchAt cls challs [i]
          = (match challs[i]? with
             | some ch => if ch.chall = cls then some ch else none
             | none => none) from rfl]
      simp only [hch]
      by_cases hcc : (challs[i]).chall = cls
      · rw [if_pos hcc, if_pos hcc]
        rfl
      · rw [if_neg hcc, if_neg hcc]
        rfl

theorem singletonMatchAt_chall {cls : ChallClass} {challs : List Challenge}
    {c : List Nat} {ch : Challenge}
    (h : singletonMatchAt cls challs c = some ch) : ch.chall = cls := by
  unfold singletonMatchAt at h
  split at h
  · split at h
    · split at h
      · cases h
        assumption
      · cases h
    · cases h
  · cases h

theorem lastSingletonMatch_chall {cls : ChallClass} {body : AuthzBody}
    {ch : Challenge} (h : lastSingletonMatch cls body = some ch) :
    ch.chall = cls := by
  obtain ⟨c, _, hm⟩ := List.exists_of_findSome?_eq_some h
  exact singletonMatchAt_chall hm

theorem select_challb_eq (cls : ChallClass) (ctype : String) (authzr : Authzr)
    (hwf : ∀ c ∈ authzr.body.combinations, ∀ i ∈ c,
      i < authzr.body.challenges.length) :
    select_challb cls ctype authzr =
      (match lastSingletonMatch cls authzr.body with
       | some ch => Except.ok ch
       | none =>
         Except.error
           (AcmeError.challengeTypeUnavailable ctype authzr.domain)) := by
  unfold select_challb
  rw [scanCombos_eq_ok cls authzr.body.challenges authzr.body.combinations
    none hwf, Option.or_none]
  cases h : lastSingletonMatch cls authzr.body with
  | none =>
    unfold lastSingletonMatch at h
    rw [h]
  | some ch =>
    unfold lastSingletonMatch at h
    rw [h]

theorem request_tokens_eq (env : Env) (st : CertRequestState)
    (domains : List String) (ctype : String) (cls : ChallClass)
    (hcls : challenge_classes ctype = some cls) :
    request_tokens env st domains ctype =
      (⟨(rtLoop env cls ctype st.challenges domains).1⟩,
       (rtLoop env cls ctype st.challenges domains).2.1,
       (rtLoop env cls ctype st.challenges domains).2.2) := by
  simp [request_tokens, hcls]

theorem rtLoop_eq_of_ok (env : Env) (cls : ChallClass) (ctype : String) :
    ∀ (ds : List String) (ctxs : List ChallengeCtx) (toks : List Token),
    (rtLoop env cls ctype ctxs ds).2.2 = Except.ok toks →
    (rtLoop env cls ctype ctxs ds).1 = ctxs ++ ds.map (ctxOfD env cls ctype)
    ∧ toks = ds.map (tokenOf env cls ctype)
    ∧ (rtLoop env cls ctype ctxs ds).2.1 = ds.map Event.requestChallenges
    ∧ ∀ d ∈ ds, (ctxOf env cls ctype d).isSome = true := by
  intro ds
  induction ds with
  | nil =>
    intro ctxs toks h
    simp [rtLoop] at h
    simp [rtLoop, h]
  | cons d rest ih =>
    intro ctxs toks h
    cases hd : env.authzOf d with
    | error u => simp [rtLoop, hd] at h
    | ok a =>
      cases hsel : select_challb cls ctype a with
      | error e => simp [rtLoop, hd, hsel] at h
      | ok ch =>
        have hctx : ctxOf env cls ctype d =
            some ⟨a, ch, (env.respVal ch).1, (env.respVal ch).2⟩ := by
          simp [ctxOf, hd, hsel]
        simp only [rtLoop, hd, hsel] at h ⊢
        cases hr : (rtLoop env cls ctype
            (ctxs ++ [⟨a, ch, (env.respVal ch).1, (env.respVal ch).2⟩])
            rest).2.2 with
        | error e => rw [hr] at h; simp at h
        | ok toks2 =>
          rw [hr] at h
          simp only [Except.ok.injEq] at h
          obtain ⟨h1, h2, h3, h4⟩ := ih
            (ctxs ++ [⟨a, ch, (env.respVal ch).1, (env.respVal ch).2⟩])
            toks2 hr
          subst h
          refine ⟨?_, ?_, ?_, ?_⟩
          · rw [h1]
            simp [ctxOfD, hctx]
          · rw [h2]
            simp [tokenOf, ctxOfD, hctx]
          · rw [h3]
            simp
          · intro d2 hd2
            rcases List.mem_cons.mp hd2 with h5 | h5
            · rw [h5, hctx]; rfl
            · exact h4 d2 h5

theorem rtLoop_ok_front (env : Env) (cls : ChallClass) (ctype : String) :
    ∀ (pre ds : List String) (ctxs : List ChallengeCtx),
    (∀ d ∈ pre, (ctxOf env cls ctype d).isSome = true) →
    rtLoop env cls ctype ctxs (pre ++ ds) =
      ((rtLoop env cls ctype
          (ctxs ++ pre.map (ctxOfD env cls ctype)) ds).1,
       pre.map Event.requestChallenges ++
         (rtLoop env cls ctype
           (ctxs ++ pre.map (ctxOfD env cls ctype)) ds).2.1,
       match (rtLoop env cls ctype
           (ctxs ++ pre.map (ctxOfD env cls ctype)) ds).2.2 with
       | Except.ok toks =>
           Except.ok (pre.map (tokenOf env cls ctype) ++ toks)
       | Except.error e => Except.error e) := by
  intro pre
  induction pre with
  | nil =>
    intro ds ctxs _
    simp only [List.nil_append, List.map_nil, List.append_nil]
    rcases hr : rtLoop env cls ctype ctxs ds with ⟨c2, tr2, res2⟩
    cases res2 <;> simp
  | cons d pre ih =>
    intro ds ctxs hpre
    obtain ⟨ctx0, hctx⟩ : ∃ x, ctxOf env cls ctype d = some x :=
      Option.isSome_iff_exists.mp (hpre d (by simp))
    have hpre2 : ∀ d2 ∈ pre, (ctxOf env cls ctype d2).isSome = true := by
      intro d2 hd2
      exact hpre d2 (List.mem_cons_of_mem _ hd2)
    have hdflt : ctxOfD env cls ctype d = ctx0 := by
      simp [ctxOfD, hctx]
    unfold ctxOf at hctx
    cases hd : env.authzOf d with
    | error u => simp [hd] at hctx
    | ok a =>
      simp only [hd] at hctx
      cases hsel : select_challb cls ctype a with
      | error e => simp [hsel] at hctx
      | ok ch =>
        simp only [hsel, Option.some.injEq] at hctx
        subst hctx
        simp only [List.cons_append, rtLoop, hd, hsel, List.append_eq]
        have hih := ih ds
          (ctxs ++ [(⟨a, ch, (env.respVal ch).1, (env.respVal ch).2⟩ :
            ChallengeCtx)]) hpre2
        simp only [hih]
        rcases hr : rtLoop env cls ctype
            ((ctxs ++ [⟨a, ch, (env.respVal ch).1, (env.respVal ch).2⟩]) ++
              pre.map (ctxOfD env cls ctype)) ds with ⟨c2, tr2, res2⟩
        have harr : ctxs ++ ctxOfD env cls ctype d ::
            pre.map (ctxOfD env cls ctype) =
            (ctxs ++ [⟨a, ch, (env.respVal ch).1, (env.respVal ch).2⟩]) ++
              pre.map (ctxOfD env cls ctype) := by
          rw [hdflt]
          simp
        rw [List.map_cons, harr, hr]
        cases res2 with
        | error e => simp [tokenOf, hdflt]
        | ok toks2 => simp [tokenOf, hdflt]

theorem rtLoop_fail_head (env : Env) (cls : ChallClass) (ctype : String)
    (bad : String) (rest : List String) (ctxs : List ChallengeCtx)
    (hbad : ctxOf env cls ctype bad = none) :
    ∃ e, rtLoop env cls ctype ctxs (bad :: rest) =
      (ctxs, [Event.requestChallenges bad], Except.error e) := by
  unfold ctxOf at hbad
  cases hd : env.authzOf bad with
  | error u =>
    exact ⟨AcmeError.challengeRequestError bad, by simp [rtLoop, hd]⟩
  | ok a =>
    simp only [hd] at hbad
    cases hsel : select_challb cls ctype a with
    | error e => exact ⟨e, by simp [rtLoop, hd, hsel]⟩
    | ok ch => simp [hsel] at hbad

theorem rtLoop_state_grows (env : Env) (cls : ChallClass) (ctype : String) :
    ∀ (ds : List String) (ctxs : List ChallengeCtx),
    ∃ n, (rtLoop env cls ctype ctxs ds).1 = ctxs ++ n := by
  intro ds
  induction ds with
  | nil => intro ctxs; exact ⟨[], by simp [rtLoop]⟩
  | cons d rest ih =>
    intro ctxs
    cases hd : env.authzOf d with
    | error u => exact ⟨[], by simp [rtLoop, hd]⟩
    | ok a =>
      cases hsel : select_challb cls ctype a with
      | error e => exact ⟨[], by simp [rtLoop, hd, hsel]⟩
      | ok ch =>
        obtain ⟨n, hn⟩ :=
          ih (ctxs ++ [⟨a, ch, (env.respVal ch).1, (env.respVal ch).2⟩])
        refine ⟨⟨a, ch, (env.respVal ch).1, (env.respVal ch).2⟩ :: n, ?_⟩
        simp only [rtLoop, hd, hsel]
        rw [hn]
        simp

theorem acLoop_all_ok (env : IssuEnv) :
    ∀ (ctxs : List ChallengeCtx) (acc : List Authzr),
    (∀ ctx ∈ ctxs,
      env.answer_challenge ctx.challb ctx.response = Except.ok ()) →
    acLoop env ctxs acc =
      (acc ++ ctxs.map ChallengeCtx.authzr,
        ctxs.map (fun c => Event.answerChallenge c.challb c.response),
        Except.ok ()) := by
  intro ctxs
  induction ctxs with
  | nil => intro acc _; simp [acLoop]
  | cons ctx rest ih =>
    intro acc h
    have hh : env.answer_challenge ctx.challb ctx.response = Except.ok () :=
      h ctx (by simp)
    have hr := ih (acc ++ [ctx.authzr])
      (fun c hc => h c (List.mem_cons_of_mem _ hc))
    simp only [acLoop, hh, hr]
    simp

theorem acLoop_ok_inv (env : IssuEnv) :
    ∀ (ctxs : List ChallengeCtx) (acc azs : List Authzr) (tr : List Event)
      (u : Unit),
    acLoop env ctxs acc = (azs, tr, Except.ok u) →
    azs = acc ++ ctxs.map ChallengeCtx.authzr
    ∧ tr = ctxs.map (fun c => Event.answerChallenge c.challb c.response) := by
  intro ctxs
  induction ctxs with
  | nil =>
    intro acc azs tr u h
    simp only [acLoop, Prod.mk.injEq] at h
    exact ⟨by simp [← h.1], h.2.1.symm⟩
  | cons ctx rest ih =>
    intro acc azs tr u h
    cases hans : env.answer_challenge ctx.challb ctx.response with
    | error e => simp [acLoop, hans] at h
    | ok v =>
      simp only [acLoop, hans] at h
      rcases hr : acLoop env rest (acc ++ [ctx.authzr]) with ⟨azs2, tr2, res2⟩
      rw [hr] at h
      simp only [Prod.mk.injEq] at h
      obtain ⟨h1, h2, h3⟩ := h
      cases res2 with
      | error e => cases h3
      | ok u2 =>
        obtain ⟨h4, h5⟩ := ih (acc ++ [ctx.authzr]) azs2 tr2 u2 hr
        subst h1
        subst h2
        rw [h4, h5]
        simp

theorem answer_challenges_state_id (env : IssuEnv) (st : CertRequestState)
    (csr : CSR) : (answer_challenges env st csr).1 = st := by
  simp only [answer_challenges]
  split
  · rfl
  · split
    · rfl
    · split
      · rfl
      · rfl

theorem answer_challenges_ok_inv (env : IssuEnv) (st : CertRequestState)
    (csr : CSR) (cert chain : List String)
    (h : (answer_challenges env st csr).2.2 = Except.ok (cert, chain)) :
    ∃ crt,
      env.poll_and_request_issuance csr
        (st.challenges.map ChallengeCtx.authzr) = Except.ok crt
      ∧ cert = [crt.body] ∧ env.fetch_chain crt = Except.ok chain := by
  rcases hac : acLoop env st.challenges [] with ⟨azs, tr1, res1⟩
  cases res1 with
  | error e =>
    have heq : (answer_challenges env st csr).2.2 = Except.error e := by
      simp only [answer_challenges, hac]
    rw [heq] at h
    simp at h
  | ok u =>
    obtain ⟨hazs, _⟩ := acLoop_ok_inv env st.challenges [] azs tr1 u hac
    rw [List.nil_append] at hazs
    subst hazs
    cases hp : env.poll_and_request_issuance csr
        (st.challenges.map ChallengeCtx.authzr) with
    | error e =>
      have heq : (answer_challenges env st csr).2.2 =
          Except.error AcmeError.issuanceError := by
        simp only [answer_challenges, hac, hp]
      rw [heq] at h
      simp at h
    | ok crt =>
      cases hf : env.fetch_chain crt with
      | error e =>
        have heq : (answer_challenges env st csr).2.2 =
            Except.error AcmeError.chainError := by
          simp only [answer_challenges, hac, hp, hf]
        rw [heq] at h
        simp at h
      | ok ch2 =>
        have heq : (answer_challenges env st csr).2.2 =
            Except.ok ([crt.body], ch2) := by
          simp only [answer_challenges, hac, hp, hf]
        rw [heq] at h
        simp only [Except.ok.injEq, Prod.mk.injEq] at h
        refine ⟨crt, ?_, h.1.symm, by rw [hf, h.2]⟩
        rfl

theorem submittedAnswers_append (l1 l2 : List Event) :
    submittedAnswers (l1 ++ l2) =
      submittedAnswers l1 ++ submittedAnswers l2 := by
  simp [submittedAnswers]

theorem submittedAnswers_of_answers (ctxs : List ChallengeCtx) :
    submittedAnswers
        (ctxs.map (fun c => Event.answerChallenge c.challb c.response)) =
      ctxs.map (fun c => (c.challb, c.response)) := by
  induction ctxs with
  | nil => rfl
  | cons c rest ih =>
    simp only [List.map_cons, submittedAnswers, List.filterMap_cons] at ih ⊢
    rw [ih]

theorem submittedAnswers_poll :
    submittedAnswers [Event.pollAndIssue] = [] := rfl

theorem submittedAnswers_poll_fetch :
    submittedAnswers [Event.pollAndIssue, Event.fetchChain] = [] := rfl

theorem submittedAnswers_answer_challenges (env : IssuEnv)
    (st : CertRequestState) (csr : CSR)
    (hans : ∀ ctx ∈ st.challenges,
      env.answer_challenge ctx.challb ctx.response = Except.ok ()) :
    submittedAnswers (answer_challenges env st csr).2.1 =
      st.challenges.map (fun c => (c.challb, c.response)) := by
  have hac := acLoop_all_ok env st.challenges [] hans
  cases hp : env.poll_and_request_issuance csr
      (st.challenges.map ChallengeCtx.authzr) with
  | error e =>
    have heq : (answer_challenges env st csr).2.1 =
        st.challenges.map
          (fun c => Event.answerChallenge c.challb c.response) ++
          [Event.pollAndIssue] := by
      simp only [answer_challenges, hac, List.nil_append, hp]
    rw [heq, submittedAnswers_append, submittedAnswers_of_answers,
      submittedAnswers_poll, List.append_nil]
  | ok crt =>
    cases hf : env.fetch_chain crt with
    | error e =>
      have heq : (answer_challenges env st csr).2.1 =
          st.challenges.map
            (fun c => Event.answerChallenge c.challb c.response) ++
            [Event.pollAndIssue, Event.fetchChain] := by
        simp only [answer_challenges, hac, List.nil_append, hp, hf]
      rw [heq, submittedAnswers_append, submittedAnswers_of_answers,
        submittedAnswers_poll_fetch, List.append_nil]
    | ok ch2 =>
      have heq : (answer_challenges env st csr).2.1 =
          st.challenges.map
            (fun c => Event.answerChallenge c.challb c.response) ++
            [Event.pollAndIssue, Event.fetchChain] := by
        simp only [answer_challenges, hac, List.nil_append, hp, hf]
      rw [heq, submittedAnswers_append, submittedAnswers_of_answers,
        submittedAnswers_poll_fetch, List.append_nil]

theorem request_tokens_res (env : Env) (st : CertRequestState)
    (domains : List String) (ctype : String) (cls : ChallClass)
    (hcls : challenge_classes ctype = some cls) :
    (request_tokens env st domains ctype).2.2 =
      (rtLoop env cls ctype st.challenges domains).2.2 := by
  simp [request_tokens, hcls]

theorem request_tokens_state (env : Env) (st : CertRequestState)
    (domains : List String) (ctype : String) (cls : ChallClass)
    (hcls : challenge_classes ctype = some cls) :
    (request_tokens env st domains ctype).1.challenges =
      (rtLoop env cls ctype st.challenges domains).1 := by
  simp [request_tokens, hcls]

theorem request_tokens_grows (env : Env) (st : CertRequestState)
    (ds : List String) (ct : String) :
    ∃ n, (request_tokens env st ds ct).1.challenges = st.challenges ++ n := by
  cases hcls : challenge_classes ct with
  | none => exact ⟨[], by simp [request_tokens, hcls]⟩
  | some cls =>
    obtain ⟨n, hn⟩ := rtLoop_state_grows env cls ct ds st.challenges
    exact ⟨n, by rw [request_tokens_state env st ds ct cls hcls, hn]⟩

/-- C1: for every authorization processed by `request_tokens` (well formed
in that its combinations reference existing challenges), the selected
challenge is the one referenced by the last combination of size one, in
combination-list order, whose challenge type equals the requested class;
when no single-element combination of that type exists, the lookup failure
(ChallengeTypeUnavailable) carrying the requested type and the
authorization's domain is raised; and a returned challenge always has the
requested type and is that last singleton match, so a challenge of another
type, or one referenced only by multi-element combinations, is never
silently selected. -/
theorem claim_c1_selection_policy (cls : ChallClass) (ctype : String)
    (authzr : Authzr)
    (hwf : ∀ c ∈ authzr.body.combinations, ∀ i ∈ c,
      i < authzr.body.challenges.length) :
    (∀ ch, lastSingletonMatch cls authzr.body = some ch →
      select_challb cls ctype authzr = Except.ok ch ∧ ch.chall = cls)
    ∧ (lastSingletonMatch cls authzr.body = none →
      select_challb cls ctype authzr =
        Except.error (AcmeError.challengeTypeUnavailable ctype authzr.domain))
    ∧ (∀ ch, select_challb cls ctype authzr = Except.ok ch →
      lastSingletonMatch cls authzr.body = some ch) := by
  have hsel := select_challb_eq cls ctype authzr hwf
  refine ⟨?_, ?_, ?_⟩
  · intro ch hch
    rw [hsel, hch]
    exact ⟨rfl, lastSingletonMatch_chall hch⟩
  · intro hnone
    rw [hsel, hnone]
  · intro ch hok
    rw [hsel] at hok
    cases hlm : lastSingletonMatch cls authzr.body with
    | none => rw [hlm] at hok; simp at hok
    | some ch2 =>
      rw [hlm] at hok
      simp only [Except.ok.injEq] at hok
      rw [hok]

/-- Authorization with several single-element dns01 combinations; the last
one, `[2]`, references the challenge with token `t2`. -/
def authzTwoMatches : Authzr :=
  ⟨"multi.example.com",
    ⟨[⟨ChallClass.DNS01, "t0"⟩, ⟨ChallClass.HTTP01, "t1"⟩,
      ⟨ChallClass.DNS01, "t2"⟩],
      [[0], [1], [0, 2], [2]]⟩⟩

/-- Authorization whose only dns01 challenge is reachable solely through a
multi-element combination. -/
def authzNoMatch : Authzr :=
  ⟨"nodns.example.com",
    ⟨[⟨ChallClass.HTTP01, "t1"⟩, ⟨ChallClass.DNS01, "t2"⟩], [[0], [0, 1]]⟩⟩

/-- Witness for C1 at two concrete authorizations: the last of two
singleton dns01 combinations wins, and an authorization with dns01 only
behind a multi-element combination yields the unavailability error. -/
theorem claim_c1_selection_policy_witness :
    (select_challb ChallClass.DNS01 "dns01" authzTwoMatches =
        Except.ok ⟨ChallClass.DNS01, "t2"⟩
      ∧ (⟨ChallClass.DNS01, "t2"⟩ : Challenge).chall = ChallClass.DNS01)
    ∧ select_challb ChallClass.DNS01 "dns01" authzNoMatch =
        Except.error
          (AcmeError.challengeTypeUnavailable "dns01" "nodns.example.com") :=
  ⟨(claim_c1_selection_policy ChallClass.DNS01 "dns01" authzTwoMatches
      (by decide)).1 ⟨ChallClass.DNS01, "t2"⟩ (by rfl),
    (claim_c1_selection_policy ChallClass.DNS01 "dns01" authzNoMatch
      (by decide)).2.1 (by rfl)⟩

/-- C2 counterexample: with a challenge library that computes the empty
string as validation value for every challenge (the code never inspects
the computed value), `request_tokens` succeeds on two domains and returns
the SAME validation value (the empty string) for both — refuting the claim
that values are always non-empty and that no two domains ever receive the
same value. -/
theorem claim_c2_duplicate_validation_cex :
    (request_tokens dupEnv ⟨[]⟩ ["a.example.com", "b.example.com"]
        "dns01").2.2 =
      Except.ok [⟨"a.example.com", ""⟩, ⟨"b.example.com", ""⟩] := by rfl

/-- C2 (amended): when `request_tokens` succeeds it returns exactly one
entry per domain, in input order, each entry pairing the domain with the
validation value the challenge library computed for that domain's selected
challenge; non-emptiness and pairwise distinctness of the values are not
enforced by the code — the entries carry exactly the library-computed
values. -/
theorem claim_c2_entries_per_domain (env : Env) (st : CertRequestState)
    (domains : List String) (ctype : String) (toks : List Token)
    (h : (request_tokens env st domains ctype).2.2 = Except.ok toks) :
    ∃ cls, challenge_classes ctype = some cls
      ∧ toks = domains.map (tokenOf env cls ctype)
      ∧ toks.map Token.domain = domains
      ∧ toks.length = domains.length := by
  cases hcls : challenge_classes ctype with
  | none =>
    have heq : (request_tokens env st domains ctype).2.2 =
        Except.error (AcmeError.invalidChallengeType ctype) := by
      simp [request_tokens, hcls]
    rw [heq] at h
    simp at h
  | some cls =>
    rw [request_tokens_res env st domains ctype cls hcls] at h
    obtain ⟨h1, h2, h3, h4⟩ :=
      rtLoop_eq_of_ok env cls ctype domains st.challenges toks h
    refine ⟨cls, rfl, h2, ?_, ?_⟩
    · rw [h2, List.map_map]
      rw [show (Token.domain ∘ tokenOf env cls ctype) = id from rfl,
        List.map_id]
    · rw [h2]
      simp

/-- Witness for C2 (amended): two domains against `okEnv` produce the two
expected entries in input order. -/
theorem claim_c2_entries_per_domain_witness :
    ∃ cls, challenge_classes "dns01" = some cls
      ∧ [(⟨"a", "val-tok-a"⟩ : Token), ⟨"b", "val-tok-b"⟩] =
          ["a", "b"].map (tokenOf okEnv cls "dns01")
      ∧ ([(⟨"a", "val-tok-a"⟩ : Token), ⟨"b", "val-tok-b"⟩]).map
          Token.domain = ["a", "b"]
      ∧ ([(⟨"a", "val-tok-a"⟩ : Token), ⟨"b", "val-tok-b"⟩]).length =
          (["a", "b"] : List String).length :=
  claim_c2_entries_per_domain okEnv ⟨[]⟩ ["a", "b"] "dns01"
    [⟨"a", "val-tok-a"⟩, ⟨"b", "val-tok-b"⟩] (by rfl)

/-- C3: for every challenge-type string outside the fixed set dns01,
http01, tlssni01, `request_tokens` raises the ValueError
(InvalidChallengeType) before performing any network call or other side
effect: the internal challenge-context state is returned unchanged and the
network trace is empty. -/
theorem claim_c3_invalid_ctype_no_side_effects (env : Env)
    (st : CertRequestState) (domains : List String) (ctype : String)
    (h1 : ctype ≠ "dns01") (h2 : ctype ≠ "http01")
    (h3 : ctype ≠ "tlssni01") :
    request_tokens env st domains ctype =
      (st, [], Except.error (AcmeError.invalidChallengeType ctype)) := by
  have hcls : challenge_classes ctype = none := by
    simp [challenge_classes, h1, h2, h3]
  simp [request_tokens, hcls]

/-- Witness for C3 at the unknown challenge type used by the spec's test
property. -/
theorem claim_c3_invalid_ctype_witness :
    request_tokens okEnv ⟨[]⟩ ["a.example.com"] "bogus-type" =
      (⟨[]⟩, [],
        Except.error (AcmeError.invalidChallengeType "bogus-type")) :=
  claim_c3_invalid_ctype_no_side_effects okEnv ⟨[]⟩ ["a.example.com"]
    "bogus-type" (by decide) (by decide) (by decide)

/-- C4: registration is idempotent over repeated calls with the same
account key: whenever the new-registration response is a 409 conflict
carrying a non-empty Location header, `register` resolves to the existing
account at that Location URI instead of creating a new account; and
against a CA that stores the account URI on first registration and reports
it back on conflict, two sequential `register` calls both yield that same
URI. -/
theorem claim_c4_register_idempotent {σ : Type} (env : RegEnv σ) (s : σ)
    (l u : String) (hl : l ≠ "") (hu : u ≠ "")
    (h409 : (env.postNewReg s).1.status_code = 409)
    (hloc : (env.postNewReg s).1.location = some l) :
    (register env s).1 = ⟨l⟩
    ∧ (register (idealCA u) none).1 = ⟨u⟩
    ∧ (register (idealCA u) ((register (idealCA u) none).2)).1 = ⟨u⟩ := by
  refine ⟨?_, ?_, ?_⟩
  · rcases hr : env.postNewReg s with ⟨resp, s1⟩
    rcases resp with ⟨code, loc⟩
    rw [hr] at h409 hloc
    simp only at h409 hloc
    subst h409
    subst hloc
    simp only [register, hr]
    rw [if_neg hl]
    rfl
  · rfl
  · have h2 : (register (idealCA u) none).2 = some u := rfl
    rw [h2]
    show (register (idealCA u) (some u)).1 = ⟨u⟩
    simp only [register, idealCA]
    rw [if_neg hu]
    rfl

/-- Witness for C4 against the ideal CA already holding the account. -/
theorem claim_c4_register_idempotent_witness :
    (register (idealCA "https://ca.example/acct/1")
        (some "https://ca.example/acct/1")).1 =
      ⟨"https://ca.example/acct/1"⟩
    ∧ (register (idealCA "https://ca.example/acct/1") none).1 =
      ⟨"https://ca.example/acct/1"⟩
    ∧ (register (idealCA "https://ca.example/acct/1")
        ((register (idealCA "https://ca.example/acct/1") none).2)).1 =
      ⟨"https://ca.example/acct/1"⟩ :=
  claim_c4_register_idempotent (idealCA "https://ca.example/acct/1")
    (some "https://ca.example/acct/1") "https://ca.example/acct/1"
    "https://ca.example/acct/1" (by decide) (by decide) (by rfl) (by rfl)

/-- C5 counterexample: with one stored challenge context for
`a.example.com` and a CSR naming `b.example.com`, against a CA that
rejects the mismatched CSR at issuance, `answer_challenges` first submits
the stored challenge answer over the network and only then fails at the
issuance call — an answer IS submitted and finalization IS attempted,
refuting the claim that the mismatch error precedes any challenge-answer
submission. -/
theorem claim_c5_mismatch_cex :
    answer_challenges mismatchIssuEnv ⟨[ctxA]⟩ ⟨["b.example.com"]⟩ =
      (⟨[ctxA]⟩,
        [Event.answerChallenge ⟨ChallClass.DNS01, "tok-a.example.com"⟩
            "resp-tok-a.example.com",
          Event.pollAndIssue],
        Except.error AcmeError.issuanceError)
    ∧ submittedAnswers
        [Event.answerChallenge ⟨ChallClass.DNS01, "tok-a.example.com"⟩
            "resp-tok-a.example.com",
          Event.pollAndIssue] =
      [(⟨ChallClass.DNS01, "tok-a.example.com"⟩,
        "resp-tok-a.example.com")] :=
  ⟨rfl, rfl⟩

/-- C5 (amended): `answer_challenges` performs no CSR validation of its
own; a CSR/negotiated-domain mismatch surfaces only as the CA's rejection
of the issuance call, which is wrapped as the issuance SystemError and
raised only AFTER every stored challenge answer has been submitted. -/
theorem claim_c5_mismatch_after_submission (env : IssuEnv)
    (st : CertRequestState) (csr : CSR)
    (hans : ∀ ctx ∈ st.challenges,
      env.answer_challenge ctx.challb ctx.response = Except.ok ())
    (hrej : env.poll_and_request_issuance csr
        (st.challenges.map ChallengeCtx.authzr) = Except.error ()) :
    answer_challenges env st csr =
      (st,
        st.challenges.map
            (fun c => Event.answerChallenge c.challb c.response) ++
          [Event.pollAndIssue],
        Except.error AcmeError.issuanceError) := by
  have hac := acLoop_all_ok env st.challenges [] hans
  simp only [answer_challenges, hac, List.nil_append, hrej]

/-- Witness for C5 (amended) at a concrete mismatched CSR. -/
theorem claim_c5_mismatch_after_submission_witness :
    answer_challenges mismatchIssuEnv ⟨[ctxA]⟩ ⟨["c.example.com"]⟩ =
      (⟨[ctxA]⟩,
        (⟨[ctxA]⟩ : CertRequestState).challenges.map
            (fun c => Event.answerChallenge c.challb c.response) ++
          [Event.pollAndIssue],
        Except.error AcmeError.issuanceError) :=
  claim_c5_mismatch_after_submission mismatchIssuEnv ⟨[ctxA]⟩
    ⟨["c.example.com"]⟩ (fun ctx _ => rfl) (by rfl)

/-- C6 counterexample: when the key file is missing, the failure escapes
from the `open` call, which sits OUTSIDE the `try` block of
`create_account`, so the raw file-open error propagates instead of the
wrapped key-load error — refuting the claim that all three failure shapes
surface as the one key-load error kind. -/
theorem claim_c6_missing_file_cex :
    create_account missingKeyEnv "account.key" =
      Except.error (AccountError.osError FileErr.enoent)
    ∧ AccountError.osError FileErr.enoent ≠ AccountError.keyLoadError :=
  ⟨rfl, by decide⟩

/-- C6 (amended): only failures inside the `try` block — reading the open
handle and parsing the key encoding — are wrapped into the key-load error;
a file that cannot be opened at all (missing or unreadable at `open`)
surfaces as the unwrapped file-open error instead. -/
theorem claim_c6_key_load_errors :
    (∀ (env : AccountEnv) (keyfile : String) (e : FileErr),
      env.openFile keyfile = Except.error e →
      create_account env keyfile = Except.error (AccountError.osError e))
    ∧ (∀ (env : AccountEnv) (keyfile : String) (h : Nat),
      env.openFile keyfile = Except.ok h →
      env.readHandle h = Except.error () →
      create_account env keyfile = Except.error AccountError.keyLoadError)
    ∧ (∀ (env : AccountEnv) (keyfile : String) (h : Nat) (c : String),
      env.openFile keyfile = Except.ok h →
      env.readHandle h = Except.ok c →
      env.parseKey c = none →
      create_account env keyfile =
        Except.error AccountError.keyLoadError) := by
  refine ⟨?_, ?_, ?_⟩
  · intro env keyfile e he
    simp [create_account, he]
  · intro env keyfile h ho hr
    simp [create_account, ho, hr]
  · intro env keyfile h c ho hr hp
    simp [create_account, ho, hr, hp]

/-- Witness for C6 (amended): the three concrete account environments hit
the three branches. -/
theorem claim_c6_key_load_errors_witness :
    create_account missingKeyEnv "account.key" =
      Except.error (AccountError.osError FileErr.enoent)
    ∧ create_account readFailEnv "account.key" =
      Except.error AccountError.keyLoadError
    ∧ create_account badPemEnv "account.key" =
      Except.error AccountError.keyLoadError :=
  ⟨claim_c6_key_load_errors.1 missingKeyEnv "account.key" FileErr.enoent rfl,
    claim_c6_key_load_errors.2.1 readFailEnv "account.key" 3 rfl rfl,
    claim_c6_key_load_errors.2.2 badPemEnv "account.key" 3 "not a pem"
      rfl rfl rfl⟩

/-- C7 counterexample: when the CA's chain-discovery mechanism yields no
intermediate certificates, `answer_challenges` returns normally with a
SINGLE-element leaf sequence and an EMPTY chain sequence — refuting the
claim that a normal return always carries two non-empty sequences. -/
theorem claim_c7_empty_chain_cex :
    answer_challenges emptyChainIssuEnv ⟨[]⟩ ⟨["a.example.com"]⟩ =
      (⟨[]⟩, [Event.pollAndIssue, Event.fetchChain],
        Except.ok (["leaf"], [])) := rfl

/-- C7 (amended): a normal return of `answer_challenges` is never
partially populated in the leaf position — the leaf sequence is exactly
the one-element list holding the issued certificate's body — and the chain
sequence is exactly what the chain fetch returned, which the code does not
require to be non-empty; in every failure case an error is raised and no
certificate material is returned. -/
theorem claim_c7_no_partial_result (env : IssuEnv) (st : CertRequestState)
    (csr : CSR) (cert chain : List String)
    (h : (answer_challenges env st csr).2.2 = Except.ok (cert, chain)) :
    cert.length = 1
    ∧ ∃ crt,
        env.poll_and_request_issuance csr
          (st.challenges.map ChallengeCtx.authzr) = Except.ok crt
        ∧ cert = [crt.body]
        ∧ env.fetch_chain crt = Except.ok chain := by
  obtain ⟨crt, hp, hc, hf⟩ := answer_challenges_ok_inv env st csr cert chain h
  exact ⟨by rw [hc]; rfl, crt, hp, hc, hf⟩

/-- Witness for C7 (amended) at a fully successful concrete run. -/
theorem claim_c7_no_partial_result_witness :
    (["leaf"] : List String).length = 1
    ∧ ∃ crt,
        allOkIssuEnv.poll_and_request_issuance ⟨["a.example.com"]⟩
          ((⟨[ctxA]⟩ : CertRequestState).challenges.map
            ChallengeCtx.authzr) = Except.ok crt
        ∧ (["leaf"] : List String) = [crt.body]
        ∧ allOkIssuEnv.fetch_chain crt =
          Except.ok ["intermediate-1", "intermediate-2"] :=
  claim_c7_no_partial_result allOkIssuEnv ⟨[ctxA]⟩ ⟨["a.example.com"]⟩
    ["leaf"] ["intermediate-1", "intermediate-2"] (by rfl)

/-- C8: `request_tokens` is not atomic over its domain batch: when every
domain of the non-empty prefix `pre` succeeds and the next domain fails,
the call raises, the contexts computed for `pre` remain stored in the
request state, and a subsequent `answer_challenges` on that same state
submits answers for exactly the retained contexts. -/
theorem claim_c8_partial_batch_retained (env : Env) (env2 : IssuEnv)
    (cls : ChallClass) (ctype : String) (st0 : CertRequestState)
    (pre rest : List String) (bad : String) (csr : CSR)
    (hcls : challenge_classes ctype = some cls)
    (hpre : ∀ d ∈ pre, (ctxOf env cls ctype d).isSome = true)
    (hbad : ctxOf env cls ctype bad = none)
    (hlen : 0 < pre.length)
    (hans : ∀ ctx ∈ st0.challenges ++ pre.map (ctxOfD env cls ctype),
      env2.answer_challenge ctx.challb ctx.response = Except.ok ()) :
    (∃ e, (request_tokens env st0 (pre ++ bad :: rest) ctype).2.2 =
      Except.error e)
    ∧ (request_tokens env st0 (pre ++ bad :: rest) ctype).1.challenges =
      st0.challenges ++ pre.map (ctxOfD env cls ctype)
    ∧ submittedAnswers
        (answer_challenges env2
          (request_tokens env st0 (pre ++ bad :: rest) ctype).1 csr).2.1 =
      (st0.challenges ++ pre.map (ctxOfD env cls ctype)).map
        (fun c => (c.challb, c.response)) := by
  have hfront := rtLoop_ok_front env cls ctype pre (bad :: rest)
    st0.challenges hpre
  obtain ⟨e, hfail⟩ := rtLoop_fail_head env cls ctype bad rest
    (st0.challenges ++ pre.map (ctxOfD env cls ctype)) hbad
  have hstate : (request_tokens env st0 (pre ++ bad :: rest) ctype).1 =
      ⟨st0.challenges ++ pre.map (ctxOfD env cls ctype)⟩ := by
    rw [request_tokens_eq env st0 (pre ++ bad :: rest) ctype cls hcls]
    rw [hfront, hfail]
  refine ⟨⟨e, ?_⟩, ?_, ?_⟩
  · rw [request_tokens_res env st0 (pre ++ bad :: rest) ctype cls hcls,
      hfront, hfail]
  · rw [hstate]
  · rw [hstate]
    exact submittedAnswers_answer_challenges env2
      ⟨st0.challenges ++ pre.map (ctxOfD env cls ctype)⟩ csr hans

/-- Witness for C8: one domain succeeds, the second fails, the first
domain's context is retained and subsequently answered. -/
theorem claim_c8_partial_batch_retained_witness :
    (∃ e, (request_tokens failSecondEnv ⟨[]⟩
        (["a.example.com"] ++ "fail.example.com" :: []) "dns01").2.2 =
      Except.error e)
    ∧ (request_tokens failSecondEnv ⟨[]⟩
        (["a.example.com"] ++ "fail.example.com" :: [])
        "dns01").1.challenges =
      (⟨[]⟩ : CertRequestState).challenges ++
        ["a.example.com"].map (ctxOfD failSecondEnv ChallClass.DNS01 "dns01")
    ∧ submittedAnswers
        (answer_challenges allOkIssuEnv
          (request_tokens failSecondEnv ⟨[]⟩
            (["a.example.com"] ++ "fail.example.com" :: []) "dns01").1
          ⟨["a.example.com"]⟩).2.1 =
      ((⟨[]⟩ : CertRequestState).challenges ++
        ["a.example.com"].map
          (ctxOfD failSecondEnv ChallClass.DNS01 "dns01")).map
        (fun c => (c.challb, c.response)) :=
  claim_c8_partial_batch_retained failSecondEnv allOkIssuEnv
    ChallClass.DNS01 "dns01" ⟨[]⟩ ["a.example.com"] [] "fail.example.com"
    ⟨["a.example.com"]⟩ rfl (by decide) rfl (by decide) (fun ctx _ => rfl)

/-- C9: the challenge-context list grows monotonically and is never
cleared: each `request_tokens` call only appends to it (on success exactly
one context per domain), two successive calls accumulate the contexts of
both, `answer_challenges` leaves the state untouched, and an
`answer_challenges` after both calls submits answers for every stored
context, not only those of the most recent call. -/
theorem claim_c9_contexts_accumulate (env1 env2 : Env) (envA : IssuEnv)
    (st : CertRequestState) (d1 d2 : List String) (t1 t2 : String)
    (csr : CSR)
    (hans : ∀ ctx ∈
        ((request_tokens env2 (request_tokens env1 st d1 t1).1 d2
          t2).1).challenges,
      envA.answer_challenge ctx.challb ctx.response = Except.ok ()) :
    (∃ n1, (request_tokens env1 st d1 t1).1.challenges =
      st.challenges ++ n1)
    ∧ (∃ n2, (request_tokens env2 (request_tokens env1 st d1 t1).1 d2
        t2).1.challenges =
      (request_tokens env1 st d1 t1).1.challenges ++ n2)
    ∧ (∀ toks, (request_tokens env1 st d1 t1).2.2 = Except.ok toks →
      ∃ cls1, challenge_classes t1 = some cls1
        ∧ (request_tokens env1 st d1 t1).1.challenges =
          st.challenges ++ d1.map (ctxOfD env1 cls1 t1))
    ∧ (answer_challenges envA
        (request_tokens env2 (request_tokens env1 st d1 t1).1 d2 t2).1
        csr).1 =
      (request_tokens env2 (request_tokens env1 st d1 t1).1 d2 t2).1
    ∧ submittedAnswers
        (answer_challenges envA
          (request_tokens env2 (request_tokens env1 st d1 t1).1 d2 t2).1
          csr).2.1 =
      ((request_tokens env2 (request_tokens env1 st d1 t1).1 d2
        t2).1).challenges.map (fun c => (c.challb, c.response)) := by
  refine ⟨request_tokens_grows env1 st d1 t1,
    request_tokens_grows env2 (request_tokens env1 st d1 t1).1 d2 t2,
    ?_, answer_challenges_state_id envA _ csr,
    submittedAnswers_answer_challenges envA _ csr hans⟩
  intro toks h
  cases hcls : challenge_classes t1 with
  | none =>
    have heq : (request_tokens env1 st d1 t1).2.2 =
        Except.error (AcmeError.invalidChallengeType t1) := by
      simp [request_tokens, hcls]
    rw [heq] at h
    simp at h
  | some cls1 =>
    rw [request_tokens_res env1 st d1 t1 cls1 hcls] at h
    obtain ⟨h1, _, _, _⟩ :=
      rtLoop_eq_of_ok env1 cls1 t1 d1 st.challenges toks h
    exact ⟨cls1, rfl,
      by rw [request_tokens_state env1 st d1 t1 cls1 hcls, h1]⟩

/-- Witness for C9 at two successive one-domain calls. -/
theorem claim_c9_contexts_accumulate_witness :
    (∃ n1, (request_tokens okEnv ⟨[]⟩ ["a"] "dns01").1.challenges =
      (⟨[]⟩ : CertRequestState).challenges ++ n1)
    ∧ (∃ n2, (request_tokens okEnv (request_tokens okEnv ⟨[]⟩ ["a"]
        "dns01").1 ["b"] "dns01").1.challenges =
      (request_tokens okEnv ⟨[]⟩ ["a"] "dns01").1.challenges ++ n2)
    ∧ (∀ toks, (request_tokens okEnv ⟨[]⟩ ["a"] "dns01").2.2 =
        Except.ok toks →
      ∃ cls1, challenge_classes "dns01" = some cls1
        ∧ (request_tokens okEnv ⟨[]⟩ ["a"] "dns01").1.challenges =
          (⟨[]⟩ : CertRequestState).challenges ++
            ["a"].map (ctxOfD okEnv cls1 "dns01"))
    ∧ (answer_challenges allOkIssuEnv
        (request_tokens okEnv (request_tokens okEnv ⟨[]⟩ ["a"] "dns01").1
          ["b"] "dns01").1 ⟨["a", "b"]⟩).1 =
      (request_tokens okEnv (request_tokens okEnv ⟨[]⟩ ["a"] "dns01").1
        ["b"] "dns01").1
    ∧ submittedAnswers
        (answer_challenges allOkIssuEnv
          (request_tokens okEnv (request_tokens okEnv ⟨[]⟩ ["a"]
            "dns01").1 ["b"] "dns01").1 ⟨["a", "b"]⟩).2.1 =
      ((request_tokens okEnv (request_tokens okEnv ⟨[]⟩ ["a"] "dns01").1
        ["b"] "dns01").1).challenges.map
        (fun c => (c.challb, c.response)) :=
  claim_c9_contexts_accumulate okEnv okEnv allOkIssuEnv ⟨[]⟩ ["a"] ["b"]
    "dns01" "dns01" ⟨["a", "b"]⟩ (fun ctx _ => rfl)

/-- C10: whenever `answer_challenges` returns normally, the returned
leaf-certificate sequence has exactly one element, the body of the issued
certificate resource, regardless of how many domains were negotiated. -/
theorem claim_c10_single_leaf (env : IssuEnv) (st : CertRequestState)
    (csr : CSR) (cert chain : List String)
    (h : (answer_challenges env st csr).2.2 = Except.ok (cert, chain)) :
    cert.length = 1
    ∧ ∃ crt,
        env.poll_and_request_issuance csr
          (st.challenges.map ChallengeCtx.authzr) = Except.ok crt
        ∧ cert = [crt.body] := by
  obtain ⟨crt, hp, hc, _⟩ := answer_challenges_ok_inv env st csr cert chain h
  exact ⟨by rw [hc]; rfl, crt, hp, hc⟩

/-- Witness for C10 at a concrete run with two stored contexts. -/
theorem claim_c10_single_leaf_witness :
    (["leaf"] : List String).length = 1
    ∧ ∃ crt,
        allOkIssuEnv.poll_and_request_issuance ⟨["x.example.com"]⟩
          (((⟨[]⟩ : CertRequestState)).challenges.map
            ChallengeCtx.authzr) = Except.ok crt
        ∧ (["leaf"] : List String) = [crt.body] :=
  claim_c10_single_leaf allOkIssuEnv ⟨[]⟩ ⟨["x.example.com"]⟩ ["leaf"]
    ["intermediate-1", "intermediate-2"] (by rfl)

end AcmePowerdns
